import Mathlib

/-!
Shallow embedding of `tillIdie.py`, a periodic uptime recorder that appends
timestamped uptime samples to `uptime.log` and commits/pushes them to a git
remote. Strings are modelled as `List Char`; the filesystem and the git
repository are modelled by an explicit `RepoState`; outcomes of the external
commands the script shells out to (`uptime`, `git pull --rebase`, `git push`,
...) are supplied by an `Env` record; every shell invocation is recorded in a
command trace.
-/

set_option autoImplicit false

namespace TillIDie

/-- The whitespace characters stripped by Python's `str.strip()`
(restricted to the ASCII ones, which are the only ones arising here). -/
def pySpace (c : Char) : Bool :=
  c = ' ' || c = '\t' || c = '\n' || c = '\r' || c = Char.ofNat 11 || c = Char.ofNat 12

/-- Python `str.strip()`: drop leading and trailing whitespace. -/
def pyStrip (s : List Char) : List Char :=
  ((s.dropWhile pySpace).reverse.dropWhile pySpace).reverse

/-- Python `line.split('=', 1)` followed by tuple unpacking: split at the
first `'='`; `none` models the `ValueError` raised when no `'='` occurs. -/
def splitEq : List Char → Option (List Char × List Char)
  | [] => none
  | c :: cs =>
    if c = '=' then some ([], cs)
    else (splitEq cs).map (fun p => (c :: p.1, p.2))

/-- Python `line.startswith('#')` (on the already-stripped line). -/
def startsHash : List Char → Bool
  | [] => false
  | c :: _ => c = '#'

/-- Python dict assignment `d[k] = v` on an insertion-ordered association
list: update in place if the key exists, else append at the end. -/
def dictInsert (k v : List Char) : List (List Char × List Char) → List (List Char × List Char)
  | [] => [(k, v)]
  | (k', v') :: rest =>
    if k' = k then (k, v) :: rest else (k', v') :: dictInsert k v rest

/-- Python `d.get(k)`. -/
def dictGet (d : List (List Char × List Char)) (k : List Char) : Option (List Char) :=
  (d.find? (fun p => p.1 == k)).map Prod.snd

/-- A raw config line is processed iff its stripped form is non-blank and
does not start with `'#'` (`if line and not line.startswith('#')`). -/
def lineActive (l : List Char) : Bool :=
  !(pyStrip l).isEmpty && !startsHash (pyStrip l)

/-- The loop body of `load_config`, threading the dict through the lines;
`none` models the caught `ValueError` (a processed line without `'='`). -/
def loadConfigGo : List (List Char) → List (List Char × List Char) →
    Option (List (List Char × List Char))
  | [], acc => some acc
  | l :: ls, acc =>
    if lineActive l then
      match splitEq (pyStrip l) with
      | none => none
      | some (k, v) => loadConfigGo ls (dictInsert (pyStrip k) (pyStrip v) acc)
    else loadConfigGo ls acc

/-- `load_config(config_path)`: `fileExists` models `os.path.exists`, the
file's contents are given as its list of raw lines. -/
def load_config (fileExists : Bool) (fileLines : List (List Char)) :
    Option (List (List Char × List Char)) :=
  if fileExists then loadConfigGo fileLines [] else none

/-- The entry a processed config line contributes: split at the first `'='`,
strip both sides. Blank and comment lines contribute nothing. -/
def parseLine (l : List Char) : Option (List Char × List Char) :=
  if lineActive l then
    (splitEq (pyStrip l)).map (fun p => (pyStrip p.1, pyStrip p.2))
  else none

/-- The key/value entries of a config file, in order of appearance. -/
def parsedEntries (fileLines : List (List Char)) : List (List Char × List Char) :=
  fileLines.filterMap parseLine

/-- A line on which `load_config` fails: non-blank, not a comment, no `'='`. -/
def badLine (l : List Char) : Bool :=
  lineActive l && (splitEq (pyStrip l)).isNone

/-- Does `pat` match at the front of `s`? -/
def matchesAt (pat s : List Char) : Bool :=
  s.take pat.length == pat

/-- Does `pat` occur anywhere in `s` (as a contiguous run)? -/
def hasOccur (pat : List Char) : List Char → Bool
  | [] => pat.isEmpty
  | c :: cs => matchesAt pat (c :: cs) || hasOccur pat cs

/-- Python `s.replace(pat, rep)`: replace every non-overlapping occurrence of
`pat`, scanning left to right. The fuel argument is a structural-recursion
bound; each step consumes at least one character of `s` (the only pattern used
here, `"https://"`, is non-empty), so `s.length` fuel always suffices. -/
def replaceAllAux (pat rep : List Char) : Nat → List Char → List Char
  | _, [] => []
  | 0, s => s
  | n + 1, c :: cs =>
    if !pat.isEmpty && matchesAt pat (c :: cs) then
      rep ++ replaceAllAux pat rep n ((c :: cs).drop pat.length)
    else
      c :: replaceAllAux pat rep n cs

/-- Python `s.replace(pat, rep)` for a non-empty `pat`. -/
def replaceAll (pat rep s : List Char) : List Char :=
  replaceAllAux pat rep s.length s

/-- The literal `"https://"`. -/
def httpsLit : List Char := "https://".data

/-- Line 62: `auth_url = github_repo_url.replace("https://", f"https://{gh_token}@")`. -/
def authUrl (gh_token github_repo_url : List Char) : List Char :=
  replaceAll httpsLit (httpsLit ++ gh_token ++ ['@']) github_repo_url

/-- The shell commands the script issues, as recorded in traces. -/
inductive Cmd where
  | gitInit
  | gitAdd (path : List Char)
  | gitStatus
  | gitCommit
  | gitRemoteGetUrl
  | gitRemoteAdd (url : List Char)
  | gitRemoteSetUrl (url : List Char)
  | gitPullRebase
  | gitRebaseAbort
  | gitResetHead1
  | gitPush
  | gitPushSetUpstream
  | uptimeCmd
deriving DecidableEq, Repr

/-- Commands that modify the remote configuration of the repository. -/
def remoteModifying : Cmd → Bool
  | Cmd.gitRemoteAdd _ => true
  | Cmd.gitRemoteSetUrl _ => true
  | _ => false

/-- Commands that modify the repository or working directory (everything
except the read-only queries `git status --porcelain`,
`git remote get-url` and `uptime`). -/
def repoModifying : Cmd → Bool
  | Cmd.gitStatus => false
  | Cmd.gitRemoteGetUrl => false
  | Cmd.uptimeCmd => false
  | _ => true

/-- The state of the working directory and local repository. The model tracks
the one file the sync step touches, `uptime.log`: `log` is its working-tree
content, `idx` its staged content, and `hist` the snapshots it has in the
commit history (newest first); `none` means the file is absent there. -/
structure RepoState where
  gitDir : Bool
  gitignore : Bool
  log : Option (List Char)
  idx : Option (List Char)
  hist : List (Option (List Char))
  originUrl : Option (List Char)
deriving DecidableEq, Repr

/-- The `uptime.log` snapshot at `HEAD` (`none` when there is no commit or the
commit does not contain the file). -/
def headSnap (s : RepoState) : Option (List Char) :=
  s.hist.headD none

/-- Outcomes of the external-world interactions `run_command` mediates:
whether each fallible command succeeds, and the data the outside world
supplies (the remote history a successful rebase puts beneath the replayed
local commit, the stdout of `uptime`, the current time). -/
structure Env where
  statusOk : Bool
  commitOk : Bool
  pullOk : Bool
  pullBase : List (Option (List Char))
  pushOk : Bool
  pushUpOk : Bool
  uptimeOk : Bool
  uptimeOut : List Char
  writeOk : Bool
  now : List Char
deriving DecidableEq, Repr

/-- Python truthiness of `run_command`'s result (`None` and `""` are falsy). -/
def pyFalsyO : Option (List Char) → Bool
  | none => true
  | some l => l.isEmpty

/-- The stripped stdout of `git status --porcelain` in state `s`: empty iff
both the index and the working tree agree with `HEAD` on `uptime.log`. -/
def statusStr (s : RepoState) : List Char :=
  if s.idx = headSnap s ∧ s.log = s.idx then [] else "M uptime.log".data

/-- `UPTIME_FILE_PATH = "uptime.log"`. -/
def logPath : List Char := "uptime.log".data

/-- The `.gitignore` path used by the initializer. -/
def gitignorePath : List Char := ".gitignore".data

/-- The placeholder token `"your_pat_here"`. -/
def patPlaceholder : List Char := "your_pat_here".data

/-- The placeholder URL `"https://github.com/your_username/your_repo.git"`. -/
def urlPlaceholder : List Char := "https://github.com/your_username/your_repo.git".data

/-- Line 58: the credential check of `initialize_git_repository`
(`not gh_token or gh_token == "your_pat_here" or not github_repo_url or ...`).
The arguments are `Option`s because `main` passes `config.get(...)`. -/
def credsBad (tok url : Option (List Char)) : Bool :=
  pyFalsyO tok || tok == some patPlaceholder || pyFalsyO url || url == some urlPlaceholder

/-- `initialize_git_repository(gh_token, github_repo_url)`: returns the
boolean result, the new state and the trace of commands issued. -/
def init_git_repository (tok url : Option (List Char)) (s : RepoState) :
    Bool × RepoState × List Cmd :=
  -- `if not os.path.isdir('.git'): run_command(['git', 'init'])`
  let s1 : RepoState := if s.gitDir then s else { s with gitDir := true }
  let t1 : List Cmd := if s.gitDir then [] else [Cmd.gitInit]
  -- `if not os.path.exists(gitignore_path)`: write it, stage it, commit it.
  -- The commit snapshots the index; its `uptime.log` snapshot is `s1.idx`.
  let s2 : RepoState :=
    if s1.gitignore then s1 else { s1 with gitignore := true, hist := s1.idx :: s1.hist }
  let t2 : List Cmd :=
    if s1.gitignore then t1 else t1 ++ [Cmd.gitAdd gitignorePath, Cmd.gitCommit]
  if credsBad tok url then (false, s2, t2)
  else
    let auth := authUrl (tok.getD []) (url.getD [])
    -- `current_url = run_command(['git', 'remote', 'get-url', GIT_REMOTE_NAME])`
    let current := s2.originUrl
    let t3 := t2 ++ [Cmd.gitRemoteGetUrl]
    if current == some auth then (true, s2, t3)
    else if !(pyFalsyO current) then
      (true, { s2 with originUrl := some auth }, t3 ++ [Cmd.gitRemoteSetUrl auth])
    else
      (true, { s2 with originUrl := some auth }, t3 ++ [Cmd.gitRemoteAdd auth])

/-- `write_uptime_to_file(file_path, uptime_output)`: append
`f"{datetime.now().isoformat()}: {uptime_output}\n"` to the file's current
content, or fail (IOError) leaving the content unchanged. `now` is the
ISO-8601 representation of the current instant. -/
def write_uptime_to_file (writeOk : Bool) (now content uptime : List Char) :
    Bool × List Char :=
  if writeOk then (true, content ++ now ++ ": ".data ++ uptime ++ ['\n'])
  else (false, content)

/-- `git_commit_and_push(file_path, remote_name, branch_name)` with
`uptime.log`/`origin`/`main`: returns the boolean result, the new state and
the trace of commands issued.

External git behaviour modelled: `git add` stages the working-tree file;
`git status --porcelain` is empty iff index and working tree agree with
`HEAD`; `git commit` succeeds iff something is staged (and `env.commitOk`);
a successful `git pull --rebase` replays the local head commit on top of a
remote base `env.pullBase`, a failed one leaves no net state change; a
`git rebase --abort` after a failed pull restores the pre-pull state (no net
change here); `git reset HEAD~1` pops the head commit and resets the index
to the new head, and fails (changing nothing) when `HEAD~1` does not exist,
i.e. when the popped commit was the only commit. -/
def git_commit_and_push (env : Env) (s : RepoState) : Bool × RepoState × List Cmd :=
  -- `run_command(['git', 'add', file_path])` (result ignored)
  let s1 : RepoState := { s with idx := s.log }
  let t1 : List Cmd := [Cmd.gitAdd logPath]
  -- `git_status = run_command(['git', 'status', '--porcelain'])`
  let gitStatusRes : Option (List Char) := if env.statusOk then some (statusStr s1) else none
  let t2 := t1 ++ [Cmd.gitStatus]
  -- `if not git_status: return True`
  if pyFalsyO gitStatusRes then (true, s1, t2)
  else
    -- `commit_output = run_command(['git', 'commit', '-m', commit_message])`
    let t3 := t2 ++ [Cmd.gitCommit]
    if !(env.commitOk && !(s1.idx == headSnap s1)) then (false, s1, t3)
    else
      let s2 : RepoState := { s1 with hist := s1.idx :: s1.hist }
      -- `if run_command(pull_command) is None:`
      let t4 := t3 ++ [Cmd.gitPullRebase]
      if !env.pullOk then
        -- `git rebase --abort` then `git reset HEAD~1` (results ignored)
        let t5 := t4 ++ [Cmd.gitRebaseAbort, Cmd.gitResetHead1]
        let s3 : RepoState :=
          match s2.hist with
          | [] => s2
          | _ :: h => if h.isEmpty then s2 else { s2 with hist := h, idx := h.headD none }
        (false, s3, t5)
      else
        let s3 : RepoState :=
          { s2 with hist :=
              match s2.hist with
              | [] => env.pullBase
              | c :: _ => c :: env.pullBase }
        let t5 := t4 ++ [Cmd.gitPush]
        if env.pushOk then (true, s3, t5)
        else
          let t6 := t5 ++ [Cmd.gitPushSetUpstream]
          if env.pushUpOk then (true, s3, t6) else (false, s3, t6)

/-- `get_uptime()`: `run_command(['uptime'])`, i.e. the command's stripped
stdout on success, `None` on non-zero exit. -/
def get_uptime (env : Env) : Option (List Char) :=
  if env.uptimeOk then some (pyStrip env.uptimeOut) else none

/-- One iteration of `main`'s `while True` loop (up to the sleep): sample
uptime, and if it is truthy, append it to the log and sync; the log file is
created empty by append-mode open when absent. -/
def cycle (env : Env) (s : RepoState) : RepoState × List Cmd :=
  match get_uptime env with
  | none => (s, [Cmd.uptimeCmd])
  | some up =>
    if up.isEmpty then (s, [Cmd.uptimeCmd])
    else
      let w := write_uptime_to_file env.writeOk env.now (s.log.getD []) up
      if w.1 then
        let r := git_commit_and_push env { s with log := some w.2 }
        (r.2.1, Cmd.uptimeCmd :: r.2.2)
      else (s, [Cmd.uptimeCmd])

/-- The key `"GH_TOKEN"`. -/
def ghTokenKey : List Char := "GH_TOKEN".data

/-- The key `"GITHUB_REPO_URL"`. -/
def repoUrlKey : List Char := "GITHUB_REPO_URL".data

/-- The part of `main` before the sampling loop: load the config (aborting on
`None` or an empty, hence falsy, dict), then initialize the repository
(aborting on failure). Returns whether the `while True` loop is entered. -/
def mainEntersLoop (fileExists : Bool) (fileLines : List (List Char)) (s : RepoState) : Bool :=
  match load_config fileExists fileLines with
  | none => false
  | some cfg =>
    if cfg.isEmpty then false
    else (init_git_repository (dictGet cfg ghTokenKey) (dictGet cfg repoUrlKey) s).1

/-! ## Lemmas about the config loader -/

theorem loadConfigGo_none_iff (lines : List (List Char)) :
    ∀ acc, loadConfigGo lines acc = none ↔ ∃ l ∈ lines, badLine l = true := by
  induction lines with
  | nil => intro acc; simp [loadConfigGo]
  | cons l ls ih =>
    intro acc
    by_cases h : lineActive l = true
    · cases hs : splitEq (pyStrip l) with
      | none => simp [loadConfigGo, h, hs, badLine]
      | some kv => simp [loadConfigGo, h, hs, badLine, ih]
    · have h' : lineActive l = false := by
        cases hl : lineActive l
        · rfl
        · exact absurd hl h
      have hb : badLine l = false := by simp [badLine, h']
      simp [loadConfigGo, h', hb, ih]

theorem dictInsert_of_fresh (k v : List Char) (acc : List (List Char × List Char))
    (h : ∀ p ∈ acc, p.1 ≠ k) : dictInsert k v acc = acc ++ [(k, v)] := by
  induction acc with
  | nil => rfl
  | cons p rest ih =>
    have hp : p.1 ≠ k := h p (List.mem_cons_self p rest)
    simp only [dictInsert]
    rw [if_neg hp, ih (fun q hq => h q (List.mem_cons_of_mem p hq))]
    simp

theorem parsedEntries_cons_inactive (l : List Char) (ls : List (List Char))
    (h : lineActive l = false) : parsedEntries (l :: ls) = parsedEntries ls := by
  simp [parsedEntries, parseLine, h]

theorem parsedEntries_cons_active (l : List Char) (ls : List (List Char))
    (k v : List Char) (h : lineActive l = true) (hs : splitEq (pyStrip l) = some (k, v)) :
    parsedEntries (l :: ls) = (pyStrip k, pyStrip v) :: parsedEntries ls := by
  simp [parsedEntries, parseLine, h, hs]

theorem loadConfigGo_clean (lines : List (List Char)) :
    ∀ acc : List (List Char × List Char),
      (∀ l ∈ lines, badLine l = false) →
      (acc.map Prod.fst ++ (parsedEntries lines).map Prod.fst).Nodup →
      loadConfigGo lines acc = some (acc ++ parsedEntries lines) := by
  induction lines with
  | nil => intro acc _ _; simp [loadConfigGo, parsedEntries]
  | cons l ls ih =>
    intro acc hgood hnd
    have hgl : badLine l = false := hgood l (List.mem_cons_self l ls)
    have hgls : ∀ x ∈ ls, badLine x = false := fun x hx => hgood x (List.mem_cons_of_mem l hx)
    by_cases h : lineActive l = true
    · cases hs : splitEq (pyStrip l) with
      | none => simp [badLine, h, hs] at hgl
      | some kv =>
        obtain ⟨k, v⟩ := kv
        rw [parsedEntries_cons_active l ls k v h hs] at hnd ⊢
        have hfresh : ∀ p ∈ acc, p.1 ≠ pyStrip k := by
          intro p hp
          have hmem : p.1 ∈ acc.map Prod.fst := List.mem_map_of_mem Prod.fst hp
          have hdisj := (List.nodup_append.mp hnd).2.2
          intro he
          exact hdisj hmem (by simp [he])
        have step : loadConfigGo (l :: ls) acc =
            loadConfigGo ls (dictInsert (pyStrip k) (pyStrip v) acc) := by
          simp [loadConfigGo, h, hs]
        rw [step, dictInsert_of_fresh _ _ _ hfresh,
          ih (acc ++ [(pyStrip k, pyStrip v)]) hgls (by simpa using hnd)]
        simp
    · have h' : lineActive l = false := by
        cases hl : lineActive l
        · rfl
        · exact absurd hl h
      rw [parsedEntries_cons_inactive l ls h'] at hnd ⊢
      have step : loadConfigGo (l :: ls) acc = loadConfigGo ls acc := by
        simp [loadConfigGo, h']
      rw [step, ih acc hgls hnd]

/-- C3: for every config file whose lines are only blank lines, comment
lines and valid `key=value` lines (with pairwise distinct keys), the loader
returns exactly the mapping of those entries, each line split on the first
`'='` with both sides trimmed. -/
theorem c3_loader_exact (lines : List (List Char))
    (hgood : ∀ l ∈ lines, badLine l = false)
    (hkeys : ((parsedEntries lines).map Prod.fst).Nodup) :
    load_config true lines = some (parsedEntries lines) := by
  have h := loadConfigGo_clean lines [] hgood (by simpa using hkeys)
  simpa [load_config] using h

/-- Witness for C3: a concrete config file with a comment, a blank line, a
`GH_TOKEN` line and a `GITHUB_REPO_URL` line, with whitespace to trim. -/
theorem c3_loader_exact_witness :
    load_config true
      ["# comment".data, "  ".data, "GH_TOKEN = abc ".data,
        " GITHUB_REPO_URL= https://host/repo.git".data] =
      some [("GH_TOKEN".data, "abc".data),
        ("GITHUB_REPO_URL".data, "https://host/repo.git".data)] := by
  have h := c3_loader_exact
    ["# comment".data, "  ".data, "GH_TOKEN = abc ".data,
      " GITHUB_REPO_URL= https://host/repo.git".data] (by decide) (by decide)
  rw [h]
  decide

/-- C4: the loader returns `none` exactly when the file is absent or some
non-blank, non-comment line has no `'='`; in either case `main` returns
before entering the sampling loop. -/
theorem c4_loader_failure (ex : Bool) (lines : List (List Char)) (s : RepoState) :
    (load_config ex lines = none ↔ ex = false ∨ ∃ l ∈ lines, badLine l = true) ∧
    (load_config ex lines = none → mainEntersLoop ex lines s = false) := by
  constructor
  · cases ex
    · simp [load_config]
    · simp [load_config, loadConfigGo_none_iff]
  · intro h
    simp [mainEntersLoop, h]

/-- Witness for C4: a file with a non-comment line lacking `'='` makes the
loader fail, and a fortiori `main` aborts on a concrete state. -/
theorem c4_loader_failure_witness :
    load_config true ["GH_TOKEN=x".data, "oops".data] = none ∧
    mainEntersLoop true ["GH_TOKEN=x".data, "oops".data]
      { gitDir := true, gitignore := true, log := none, idx := none,
        hist := [], originUrl := none } = false := by
  have h := c4_loader_failure true ["GH_TOKEN=x".data, "oops".data]
    { gitDir := true, gitignore := true, log := none, idx := none,
      hist := [], originUrl := none }
  have h1 : load_config true ["GH_TOKEN=x".data, "oops".data] = none :=
    h.1.mpr (Or.inr ⟨"oops".data, by decide, by decide⟩)
  exact ⟨h1, h.2 h1⟩

/-! ## Lemmas about the authenticated URL construction -/

theorem replaceAllAux_no_occur (pat rep : List Char) :
    ∀ (n : Nat) (s : List Char), hasOccur pat s = false → replaceAllAux pat rep n s = s := by
  intro n
  induction n with
  | zero => intro s _; cases s <;> rfl
  | succ n ih =>
    intro s hs
    cases s with
    | nil => rfl
    | cons c cs =>
      have h1 : matchesAt pat (c :: cs) = false := by
        have := hs
        simp [hasOccur] at this
        exact this.1
      have h2 : hasOccur pat cs = false := by
        have := hs
        simp [hasOccur] at this
        exact this.2
      simp [replaceAllAux, h1, ih cs h2]

theorem replaceAllAux_head_match (pat rep rest : List Char) (hne : pat ≠ []) (n : Nat)
    (hocc : hasOccur pat rest = false) :
    replaceAllAux pat rep (n + 1) (pat ++ rest) = rep ++ rest := by
  obtain ⟨p, pt, rfl⟩ : ∃ p pt, pat = p :: pt := by
    cases pat with
    | nil => exact absurd rfl hne
    | cons p pt => exact ⟨p, pt, rfl⟩
  have hm : matchesAt (p :: pt) ((p :: pt) ++ rest) = true := by
    simp [matchesAt, List.take_left]
  have hd : ((p :: pt) ++ rest).drop (p :: pt).length = rest := List.drop_left _ _
  show replaceAllAux (p :: pt) rep (n + 1) (p :: (pt ++ rest)) = rep ++ rest
  rw [replaceAllAux]
  have hcons : p :: (pt ++ rest) = (p :: pt) ++ rest := rfl
  rw [hcons, hm]
  simp [hd, replaceAllAux_no_occur (p :: pt) rep n rest hocc]

/-- C6 (amended): inserting the token after the scheme is what
`url.replace("https://", f"https://{token}@")` computes, provided the part of
the URL after the scheme does not itself contain `"https://"`. -/
theorem c6_auth_url (tok rest : List Char) (hocc : hasOccur httpsLit rest = false) :
    authUrl tok (httpsLit ++ rest) = httpsLit ++ tok ++ '@' :: rest := by
  have hne : httpsLit ≠ [] := by decide
  have hlen : (httpsLit ++ rest).length = (7 + rest.length) + 1 := by
    simp [httpsLit]
    omega
  unfold authUrl replaceAll
  rw [hlen, replaceAllAux_head_match httpsLit (httpsLit ++ tok ++ ['@']) rest hne _ hocc]
  simp

/-- Witness for C6 (amended): a concrete URL with a single scheme occurrence. -/
theorem c6_auth_url_witness :
    authUrl "tok123".data ("https://".data ++ "github.com/u/r.git".data) =
      "https://".data ++ "tok123".data ++ '@' :: "github.com/u/r.git".data := by
  have h := c6_auth_url "tok123".data "github.com/u/r.git".data (by decide)
  have hlit : httpsLit = "https://".data := by decide
  rw [hlit] at h
  exact h

/-- Counterexample for C6 as stated: when the remainder of the URL contains a
second `"https://"`, Python's `str.replace` rewrites that occurrence too, so
the result is not `"https://" ++ token ++ "@" ++ rest`. -/
theorem c6_counterexample :
    authUrl "t".data ("https://".data ++ "a/https://b".data) ≠
      "https://".data ++ "t".data ++ '@' :: "a/https://b".data := by
  decide

/-! ## Lemmas about the append-only log -/

/-- The lines of a text file's content, splitting at each `'\n'`. -/
def linesOf : List Char → List (List Char)
  | [] => []
  | c :: cs =>
    if c = '\n' then [] :: linesOf cs
    else
      match linesOf cs with
      | [] => [[c]]
      | l :: ls => (c :: l) :: ls

/-- Content that is either empty or `'\n'`-terminated (the invariant the
append step maintains on the log file). -/
def endsNl (content : List Char) : Prop :=
  content = [] ∨ content.getLast? = some '\n'

theorem linesOf_ne_nil (s : List Char) (h : s ≠ []) : linesOf s ≠ [] := by
  cases s with
  | nil => exact absurd rfl h
  | cons c cs =>
    by_cases hc : c = '\n'
    · simp [linesOf, hc]
    · simp only [linesOf, if_neg hc]
      cases linesOf cs <;> simp

theorem linesOf_line_append (l : List Char) (rest : List Char) (h : '\n' ∉ l) :
    linesOf (l ++ '\n' :: rest) = l :: linesOf rest := by
  induction l with
  | nil => simp [linesOf]
  | cons c cs ih =>
    have hc : c ≠ '\n' := fun he => h (he ▸ List.mem_cons_self c cs)
    have hcs : '\n' ∉ cs := fun hm => h (List.mem_cons_of_mem c hm)
    show linesOf (c :: (cs ++ '\n' :: rest)) = (c :: cs) :: linesOf rest
    simp only [linesOf, if_neg hc, ih hcs]

theorem linesOf_cons_nl (cs : List Char) : linesOf ('\n' :: cs) = [] :: linesOf cs := by
  simp [linesOf]

theorem linesOf_cons_ne (c : Char) (cs : List Char) (h : c ≠ '\n') :
    linesOf (c :: cs) =
      match linesOf cs with
      | [] => [[c]]
      | l :: ls => (c :: l) :: ls := by
  rw [linesOf, if_neg h]

theorem linesOf_append_of_endsNl (content : List Char) (t : List Char)
    (h : endsNl content) : linesOf (content ++ t) = linesOf content ++ linesOf t := by
  induction content with
  | nil => simp [linesOf]
  | cons c cs ih =>
    rcases h with h | h
    · exact absurd h (by simp)
    · cases cs with
      | nil =>
        have hc : c = '\n' := by simpa using h
        subst hc
        simp [linesOf_cons_nl, linesOf]
      | cons c' cs' =>
        have hlast : (c' :: cs').getLast? = some '\n' := by
          rw [List.getLast?_cons_cons] at h
          exact h
        have ih' := ih (Or.inr hlast)
        by_cases hc : c = '\n'
        · subst hc
          show linesOf ('\n' :: ((c' :: cs') ++ t)) = linesOf ('\n' :: (c' :: cs')) ++ linesOf t
          rw [linesOf_cons_nl, linesOf_cons_nl, ih']
          rfl
        · obtain ⟨x, xs, hx⟩ : ∃ x xs, linesOf (c' :: cs') = x :: xs := by
            cases hl : linesOf (c' :: cs') with
            | nil => exact absurd hl (linesOf_ne_nil _ (by simp))
            | cons x xs => exact ⟨x, xs, rfl⟩
          show linesOf (c :: ((c' :: cs') ++ t)) = linesOf (c :: (c' :: cs')) ++ linesOf t
          rw [linesOf_cons_ne c ((c' :: cs') ++ t) hc, linesOf_cons_ne c (c' :: cs') hc,
            ih', hx]
          rfl

/-- C7: a successful append leaves the prior content as an unchanged prefix
and the file's line list gains exactly the one new line
`<timestamp>: <uptime>` (terminated by a newline). -/
theorem c7_append_only (now content uptime : List Char)
    (hn : '\n' ∉ now) (hu : '\n' ∉ uptime) (hc : endsNl content) :
    (write_uptime_to_file true now content uptime).1 = true ∧
    (write_uptime_to_file true now content uptime).2 =
      content ++ (now ++ ": ".data ++ uptime ++ ['\n']) ∧
    linesOf (write_uptime_to_file true now content uptime).2 =
      linesOf content ++ [now ++ ": ".data ++ uptime] := by
  refine ⟨rfl, by simp [write_uptime_to_file], ?_⟩
  have hline : '\n' ∉ now ++ ": ".data ++ uptime := by
    intro hmem
    rcases List.mem_append.mp hmem with hmem | hmem
    · rcases List.mem_append.mp hmem with hmem | hmem
      · exact hn hmem
      · simp [String.data] at hmem
    · exact hu hmem
  have h2 : write_uptime_to_file true now content uptime =
      (true, content ++ ((now ++ ": ".data ++ uptime) ++ '\n' :: [])) := by
    simp [write_uptime_to_file]
  rw [h2, linesOf_append_of_endsNl content _ hc, linesOf_line_append _ [] hline]
  rfl

/-- Witness for C7: appending `"up 2 days"` at a fixed instant to a concrete
one-line log. -/
theorem c7_append_only_witness :
    (write_uptime_to_file true "2026-10-12T00:00:00".data "old line\n".data
        "up 2 days".data).2 =
      "old line\n".data ++ ("2026-10-12T00:00:00".data ++ ": ".data ++
        "up 2 days".data ++ ['\n']) ∧
    linesOf (write_uptime_to_file true "2026-10-12T00:00:00".data "old line\n".data
        "up 2 days".data).2 =
      linesOf "old line\n".data ++ ["2026-10-12T00:00:00".data ++ ": ".data ++
        "up 2 days".data] := by
  have h := c7_append_only "2026-10-12T00:00:00".data "old line\n".data
    "up 2 days".data (by decide) (by decide) (Or.inr (by decide))
  exact ⟨h.2.1, h.2.2⟩

/-! ## Theorems about the sync step and the cycle driver -/

/-- C10: when the `git status --porcelain` invocation itself fails, the sync
step returns success exactly as in the no-changes case: no commit, no push,
history unchanged. -/
theorem c10_status_failure (env : Env) (s : RepoState) (h : env.statusOk = false) :
    (git_commit_and_push env s).1 = true ∧
    Cmd.gitCommit ∉ (git_commit_and_push env s).2.2 ∧
    Cmd.gitPush ∉ (git_commit_and_push env s).2.2 ∧
    Cmd.gitPushSetUpstream ∉ (git_commit_and_push env s).2.2 ∧
    (git_commit_and_push env s).2.1.hist = s.hist := by
  simp [git_commit_and_push, h, pyFalsyO]

/-- Witness for C10: a concrete environment whose status command fails. -/
theorem c10_status_failure_witness :
    (git_commit_and_push
      { statusOk := false, commitOk := true, pullOk := true, pullBase := [],
        pushOk := true, pushUpOk := true, uptimeOk := true, uptimeOut := [],
        writeOk := true, now := [] }
      { gitDir := true, gitignore := true, log := some "x".data, idx := none,
        hist := [none], originUrl := none }).1 = true ∧
    Cmd.gitCommit ∉ (git_commit_and_push
      { statusOk := false, commitOk := true, pullOk := true, pullBase := [],
        pushOk := true, pushUpOk := true, uptimeOk := true, uptimeOut := [],
        writeOk := true, now := [] }
      { gitDir := true, gitignore := true, log := some "x".data, idx := none,
        hist := [none], originUrl := none }).2.2 := by
  have h := c10_status_failure
    { statusOk := false, commitOk := true, pullOk := true, pullBase := [],
      pushOk := true, pushUpOk := true, uptimeOk := true, uptimeOut := [],
      writeOk := true, now := [] }
    { gitDir := true, gitignore := true, log := some "x".data, idx := none,
      hist := [none], originUrl := none } rfl
  exact ⟨h.1, h.2.1⟩

/-- C9: when the `uptime` command exits non-zero, the cycle appends nothing
to the log and attempts no commit or push. -/
theorem c9_sampler_failure (env : Env) (s : RepoState) (h : env.uptimeOk = false) :
    (cycle env s).1.log = s.log ∧
    (cycle env s).1 = s ∧
    Cmd.gitCommit ∉ (cycle env s).2 ∧
    Cmd.gitPush ∉ (cycle env s).2 ∧
    Cmd.gitPushSetUpstream ∉ (cycle env s).2 := by
  simp [cycle, get_uptime, h]

/-- Witness for C9: a concrete environment whose uptime command fails. -/
theorem c9_sampler_failure_witness :
    (cycle
      { statusOk := true, commitOk := true, pullOk := true, pullBase := [],
        pushOk := true, pushUpOk := true, uptimeOk := false, uptimeOut := [],
        writeOk := true, now := [] }
      { gitDir := true, gitignore := true, log := some "x".data, idx := none,
        hist := [none], originUrl := none }).1.log = some "x".data ∧
    Cmd.gitCommit ∉ (cycle
      { statusOk := true, commitOk := true, pullOk := true, pullBase := [],
        pushOk := true, pushUpOk := true, uptimeOk := false, uptimeOut := [],
        writeOk := true, now := [] }
      { gitDir := true, gitignore := true, log := some "x".data, idx := none,
        hist := [none], originUrl := none }).2 := by
  have h := c9_sampler_failure
    { statusOk := true, commitOk := true, pullOk := true, pullBase := [],
      pushOk := true, pushUpOk := true, uptimeOk := false, uptimeOut := [],
      writeOk := true, now := [] }
    { gitDir := true, gitignore := true, log := some "x".data, idx := none,
      hist := [none], originUrl := none } rfl
  exact ⟨h.1, h.2.2.1⟩

/-- C2 (amended): when a commit was created in the cycle and the pull
--rebase step fails, the sync step issues `git rebase --abort` and
`git reset HEAD~1`, reports failure, and — provided at least one commit
existed before the cycle — the commit history afterwards is identical to the
history before (and the working tree keeps the new log line for the next
cycle's retry). -/
theorem c2_rebase_rollback (env : Env) (s : RepoState)
    (hst : env.statusOk = true) (hco : env.commitOk = true) (hpull : env.pullOk = false)
    (hchange : s.log ≠ headSnap s) (hhist : s.hist ≠ []) :
    (git_commit_and_push env s).1 = false ∧
    (git_commit_and_push env s).2.1.hist = s.hist ∧
    (git_commit_and_push env s).2.1.log = s.log ∧
    Cmd.gitCommit ∈ (git_commit_and_push env s).2.2 ∧
    Cmd.gitRebaseAbort ∈ (git_commit_and_push env s).2.2 ∧
    Cmd.gitResetHead1 ∈ (git_commit_and_push env s).2.2 := by
  have hemp : s.hist.isEmpty = false := by
    cases hl : s.hist with
    | nil => exact absurd hl hhist
    | cons a b => rfl
  have hch : ¬ s.log = s.hist.head?.getD none := by
    intro he
    exact hchange (by rw [headSnap, List.headD_eq_head?]; exact he)
  simp [git_commit_and_push, statusStr, headSnap, pyFalsyO, hst, hco, hpull,
    hch, hemp]

/-- Witness for C2 (amended): a concrete failed-pull cycle over a one-commit
history. -/
theorem c2_rebase_rollback_witness :
    (git_commit_and_push
      { statusOk := true, commitOk := true, pullOk := false, pullBase := [],
        pushOk := true, pushUpOk := true, uptimeOk := true, uptimeOut := [],
        writeOk := true, now := [] }
      { gitDir := true, gitignore := true, log := some "x".data, idx := none,
        hist := [none], originUrl := none }).1 = false ∧
    (git_commit_and_push
      { statusOk := true, commitOk := true, pullOk := false, pullBase := [],
        pushOk := true, pushUpOk := true, uptimeOk := true, uptimeOut := [],
        writeOk := true, now := [] }
      { gitDir := true, gitignore := true, log := some "x".data, idx := none,
        hist := [none], originUrl := none }).2.1.hist = [none] := by
  have h := c2_rebase_rollback
    { statusOk := true, commitOk := true, pullOk := false, pullBase := [],
      pushOk := true, pushUpOk := true, uptimeOk := true, uptimeOut := [],
      writeOk := true, now := [] }
    { gitDir := true, gitignore := true, log := some "x".data, idx := none,
      hist := [none], originUrl := none } rfl rfl rfl (by decide) (by decide)
  exact ⟨h.1, h.2.1⟩

/-- Counterexample for C2 as stated: when the speculative commit is the very
first commit of the repository, `git reset HEAD~1` has no parent to reset to
and fails, so the commit survives the rollback and the history after the
cycle differs from the (empty) history before it, even though a commit was
created and the pull step failed. -/
theorem c2_counterexample :
    (git_commit_and_push
      { statusOk := true, commitOk := true, pullOk := false, pullBase := [],
        pushOk := true, pushUpOk := true, uptimeOk := true, uptimeOut := [],
        writeOk := true, now := [] }
      { gitDir := true, gitignore := true, log := some "x".data, idx := none,
        hist := [], originUrl := none }).1 = false ∧
    Cmd.gitCommit ∈ (git_commit_and_push
      { statusOk := true, commitOk := true, pullOk := false, pullBase := [],
        pushOk := true, pushUpOk := true, uptimeOk := true, uptimeOut := [],
        writeOk := true, now := [] }
      { gitDir := true, gitignore := true, log := some "x".data, idx := none,
        hist := [], originUrl := none }).2.2 ∧
    Cmd.gitPullRebase ∈ (git_commit_and_push
      { statusOk := true, commitOk := true, pullOk := false, pullBase := [],
        pushOk := true, pushUpOk := true, uptimeOk := true, uptimeOut := [],
        writeOk := true, now := [] }
      { gitDir := true, gitignore := true, log := some "x".data, idx := none,
        hist := [], originUrl := none }).2.2 ∧
    (git_commit_and_push
      { statusOk := true, commitOk := true, pullOk := false, pullBase := [],
        pushOk := true, pushUpOk := true, uptimeOk := true, uptimeOut := [],
        writeOk := true, now := [] }
      { gitDir := true, gitignore := true, log := some "x".data, idx := none,
        hist := [], originUrl := none }).2.1.hist ≠ [] := by
  decide

/-- C8: if after staging the status reports no changes, the sync step
succeeds without creating a commit; and a successful commit/push invocation
followed by a second invocation with no intervening log change makes the
second one succeed with no second commit. -/
theorem c8_no_changes_idempotent (env : Env) (s : RepoState) :
    (env.statusOk = true → s.log = headSnap s →
      (git_commit_and_push env s).1 = true ∧
      Cmd.gitCommit ∉ (git_commit_and_push env s).2.2 ∧
      (git_commit_and_push env s).2.1.hist = s.hist) ∧
    (env.statusOk = true → env.commitOk = true → env.pullOk = true → env.pushOk = true →
      s.log ≠ headSnap s →
      (git_commit_and_push env s).1 = true ∧
      Cmd.gitCommit ∈ (git_commit_and_push env s).2.2 ∧
      Cmd.gitPush ∈ (git_commit_and_push env s).2.2 ∧
      (git_commit_and_push env (git_commit_and_push env s).2.1).1 = true ∧
      Cmd.gitCommit ∉ (git_commit_and_push env (git_commit_and_push env s).2.1).2.2 ∧
      (git_commit_and_push env (git_commit_and_push env s).2.1).2.1.hist =
        (git_commit_and_push env s).2.1.hist) := by
  constructor
  · intro hst hclean
    have hch : s.log = s.hist.head?.getD none := by
      rw [headSnap, List.headD_eq_head?] at hclean
      exact hclean
    simp [git_commit_and_push, statusStr, headSnap, pyFalsyO, hst, hch]
  · intro hst hco hpull hpush hchange
    have hch : ¬ s.log = s.hist.head?.getD none := by
      intro he
      exact hchange (by rw [headSnap, List.headD_eq_head?]; exact he)
    simp [git_commit_and_push, statusStr, headSnap, pyFalsyO, hst, hco, hpull,
      hpush, hch]

/-- Witness for C8: a concrete changed log committed and pushed once, then a
second invocation with no change succeeding without a commit. -/
theorem c8_no_changes_idempotent_witness :
    (git_commit_and_push
      { statusOk := true, commitOk := true, pullOk := true, pullBase := [none],
        pushOk := true, pushUpOk := true, uptimeOk := true, uptimeOut := [],
        writeOk := true, now := [] }
      { gitDir := true, gitignore := true, log := some "x".data, idx := none,
        hist := [none], originUrl := none }).1 = true ∧
    (git_commit_and_push
      { statusOk := true, commitOk := true, pullOk := true, pullBase := [none],
        pushOk := true, pushUpOk := true, uptimeOk := true, uptimeOut := [],
        writeOk := true, now := [] }
      (git_commit_and_push
        { statusOk := true, commitOk := true, pullOk := true, pullBase := [none],
          pushOk := true, pushUpOk := true, uptimeOk := true, uptimeOut := [],
          writeOk := true, now := [] }
        { gitDir := true, gitignore := true, log := some "x".data, idx := none,
          hist := [none], originUrl := none }).2.1).1 = true ∧
    Cmd.gitCommit ∉ (git_commit_and_push
      { statusOk := true, commitOk := true, pullOk := true, pullBase := [none],
        pushOk := true, pushUpOk := true, uptimeOk := true, uptimeOut := [],
        writeOk := true, now := [] }
      (git_commit_and_push
        { statusOk := true, commitOk := true, pullOk := true, pullBase := [none],
          pushOk := true, pushUpOk := true, uptimeOk := true, uptimeOut := [],
          writeOk := true, now := [] }
        { gitDir := true, gitignore := true, log := some "x".data, idx := none,
          hist := [none], originUrl := none }).2.1).2.2 := by
  have h := (c8_no_changes_idempotent
    { statusOk := true, commitOk := true, pullOk := true, pullBase := [none],
      pushOk := true, pushUpOk := true, uptimeOk := true, uptimeOut := [],
      writeOk := true, now := [] }
    { gitDir := true, gitignore := true, log := some "x".data, idx := none,
      hist := [none], originUrl := none }).2 rfl rfl rfl rfl (by decide)
  exact ⟨h.1, h.2.2.2.1, h.2.2.2.2.1⟩

/-- C5: the remote reconciliation of `initialize_git_repository` is a case
analysis on the URL bound to `origin`: absent URL gives `git remote add`,
a different (non-empty) URL gives `git remote set-url`, and when the target
authenticated URL is already bound no remote-modifying command is issued. -/
theorem c5_remote_reconciliation (tok url : List Char) (s : RepoState)
    (hcreds : credsBad (some tok) (some url) = false) :
    (s.originUrl = none →
      ((init_git_repository (some tok) (some url) s).2.2.filter remoteModifying) =
        [Cmd.gitRemoteAdd (authUrl tok url)] ∧
      (init_git_repository (some tok) (some url) s).2.1.originUrl =
        some (authUrl tok url) ∧
      (init_git_repository (some tok) (some url) s).1 = true) ∧
    (∀ u₀, s.originUrl = some u₀ → u₀ ≠ authUrl tok url → u₀ ≠ [] →
      ((init_git_repository (some tok) (some url) s).2.2.filter remoteModifying) =
        [Cmd.gitRemoteSetUrl (authUrl tok url)] ∧
      (init_git_repository (some tok) (some url) s).2.1.originUrl =
        some (authUrl tok url) ∧
      (init_git_repository (some tok) (some url) s).1 = true) ∧
    (s.originUrl = some (authUrl tok url) →
      ((init_git_repository (some tok) (some url) s).2.2.filter remoteModifying) = [] ∧
      (init_git_repository (some tok) (some url) s).2.1.originUrl = s.originUrl ∧
      (init_git_repository (some tok) (some url) s).1 = true) := by
  refine ⟨?_, ?_, ?_⟩
  · intro ha
    cases hgd : s.gitDir <;> cases hgi : s.gitignore <;>
      simp [init_git_repository, hgd, hgi, hcreds, ha, pyFalsyO, remoteModifying]
  · intro u₀ ha hne hnil
    have hu0 : u₀.isEmpty = false := by
      cases u₀ with
      | nil => exact absurd rfl hnil
      | cons a b => rfl
    cases hgd : s.gitDir <;> cases hgi : s.gitignore <;>
      simp [init_git_repository, hgd, hgi, hcreds, ha, pyFalsyO, remoteModifying,
        hne, hu0]
  · intro ha
    cases hgd : s.gitDir <;> cases hgi : s.gitignore <;>
      simp [init_git_repository, hgd, hgi, hcreds, ha, pyFalsyO, remoteModifying]

/-- Witness for C5: re-running initialization when `origin` is already bound
to the exact authenticated URL issues no remote-modifying command. -/
theorem c5_remote_reconciliation_witness :
    ((init_git_repository (some "tk".data) (some "https://h/r.git".data)
      { gitDir := true, gitignore := true, log := none, idx := none,
        hist := [none],
        originUrl := some (authUrl "tk".data "https://h/r.git".data) }).2.2.filter
      remoteModifying) = [] := by
  have h := (c5_remote_reconciliation "tk".data "https://h/r.git".data
    { gitDir := true, gitignore := true, log := none, idx := none,
      hist := [none],
      originUrl := some (authUrl "tk".data "https://h/r.git".data) }
    (by decide)).2.2 rfl
  exact h.1

/-- C1 (amended): when the loaded token or URL is missing, empty or a
placeholder, initialization reports failure without issuing any
remote-modifying command, and `main` returns before entering the sampling
loop; the `git init` and `.gitignore` steps, which precede the credential
check, may still run. -/
theorem c1_placeholder_abort (fileExists : Bool) (lines : List (List Char))
    (cfg : List (List Char × List Char)) (s : RepoState)
    (hload : load_config fileExists lines = some cfg)
    (hbad : credsBad (dictGet cfg ghTokenKey) (dictGet cfg repoUrlKey) = true) :
    (init_git_repository (dictGet cfg ghTokenKey) (dictGet cfg repoUrlKey) s).1 = false ∧
    (∀ c ∈ (init_git_repository (dictGet cfg ghTokenKey) (dictGet cfg repoUrlKey) s).2.2,
      remoteModifying c = false) ∧
    mainEntersLoop fileExists lines s = false := by
  have hinit : (init_git_repository (dictGet cfg ghTokenKey) (dictGet cfg repoUrlKey) s).1
      = false ∧
      (∀ c ∈ (init_git_repository (dictGet cfg ghTokenKey) (dictGet cfg repoUrlKey) s).2.2,
        remoteModifying c = false) := by
    cases hgd : s.gitDir <;> cases hgi : s.gitignore <;>
      simp [init_git_repository, hgd, hgi, hbad, remoteModifying]
  refine ⟨hinit.1, hinit.2, ?_⟩
  rw [mainEntersLoop, hload]
  by_cases hc : cfg.isEmpty
  · simp [hc]
  · simp [hc, hinit.1]

/-- Witness for C1 (amended): a concrete config whose token is the
placeholder makes initialization fail with no remote command and keeps
`main` out of the loop. -/
theorem c1_placeholder_abort_witness :
    (init_git_repository
      (dictGet [("GH_TOKEN".data, "your_pat_here".data),
        ("GITHUB_REPO_URL".data, "https://h/r.git".data)] ghTokenKey)
      (dictGet [("GH_TOKEN".data, "your_pat_here".data),
        ("GITHUB_REPO_URL".data, "https://h/r.git".data)] repoUrlKey)
      { gitDir := false, gitignore := true, log := none, idx := none,
        hist := [], originUrl := none }).1 = false ∧
    mainEntersLoop true
      ["GH_TOKEN=your_pat_here".data, "GITHUB_REPO_URL=https://h/r.git".data]
      { gitDir := false, gitignore := true, log := none, idx := none,
        hist := [], originUrl := none } = false := by
  have h := c1_placeholder_abort true
    ["GH_TOKEN=your_pat_here".data, "GITHUB_REPO_URL=https://h/r.git".data]
    [("GH_TOKEN".data, "your_pat_here".data),
      ("GITHUB_REPO_URL".data, "https://h/r.git".data)]
    { gitDir := false, gitignore := true, log := none, idx := none,
      hist := [], originUrl := none } (by decide) (by decide)
  exact ⟨h.1, h.2.2⟩

/-- Counterexample for C1 as stated: with placeholder credentials and no
`.git` directory yet, initialization still performs a repository-modifying
step (`git init`), so "no repository-modifying step is performed" fails
even though the process does exit before the loop. -/
theorem c1_counterexample :
    credsBad (some "your_pat_here".data) (some "https://h/r.git".data) = true ∧
    ((init_git_repository (some "your_pat_here".data) (some "https://h/r.git".data)
      { gitDir := false, gitignore := true, log := none, idx := none,
        hist := [], originUrl := none }).2.2.any repoModifying) = true ∧
    (init_git_repository (some "your_pat_here".data) (some "https://h/r.git".data)
      { gitDir := false, gitignore := true, log := none, idx := none,
        hist := [], originUrl := none }).1 = false := by
  decide

end TillIDie
